import Mathlib

/-
Verification of the `numerizer` Go package (sbelkin88/numerizer): a parser
turning English number phrases, optionally with "dollars"/"cents" markers,
into an integer amount of cents.

The definitions below are a shallow embedding of `src/numerizer.go`:
  * the lexicon maps (`singleNumbers`, `directNumbers`, `tenPrefixNumbers`,
    `largeNumbers`) are the Go map literals as association lists;
  * `preprocess`, `fields`, `newItem`, `newItemFromMap`, `newParser`, `peek`
    follow the Go functions of the same names;
  * the chained state-transition functions (`parse`, `parseZero`,
    `parseSingle`, `parseDirect`, `parseTenPrefix`, `parseHundred`,
    `parseLarge`, `parseDollars`, `parseCents`, `parseDefault`) become the
    constructors of `Fn` together with the single dispatch function `step`;
    returning `nil` in Go becomes returning `none`;
  * `run` iterates `step` with explicit fuel; `Parse` supplies fuel
    `items.length + 2`, which is proved sufficient (`run` never returns
    `none` for that fuel, see the termination theorem for claim C10), so the
    `outOfFuel` branch of `Parse` is unreachable.
Go `int` arithmetic is modelled by `Int` (no input in any claim reaches
64-bit overflow).  The source constructor name `itemTenPrefix` and function
name `parseTenPrefix` are shortened to `itemTenPfx` / `parseTenPfx` here.
-/

inductive itemType where
  | itemError
  | itemDollars
  | itemCents
  | itemZero
  | itemHundred
  | itemSingle
  | itemDirect
  | itemTenPfx
  | itemLarge
  | itemEOL
  | itemDefault
  deriving DecidableEq

structure Item where
  typ : itemType
  key : String := ""
  val : Int := 0
  deriving DecidableEq

/-- Error values produced by the Go function `parseError` (the three
`fmt.Errorf` branches), plus `outOfFuel`, an artifact of the fuel-indexed
embedding of the transition loop that is proved unreachable. -/
inductive ParseErr where
  | badNumber (key : String)
  | unexpectedStart (key : String)
  | unexpectedAfter (key after : String)
  | outOfFuel
  deriving DecidableEq

def singleNumbers : List (String × Int) :=
  [("one", 1), ("two", 2), ("three", 3), ("four", 4), ("five", 5),
   ("six", 6), ("seven", 7), ("eight", 8), ("nine", 9)]

def directNumbers : List (String × Int) :=
  [("ten", 10), ("eleven", 11), ("twelve", 12), ("thirteen", 13),
   ("fourteen", 14), ("fifteen", 15), ("sixteen", 16), ("seventeen", 17),
   ("eighteen", 18), ("nineteen", 19)]

def tenPrefixNumbers : List (String × Int) :=
  [("twenty", 20), ("thirty", 30), ("forty", 40), ("fifty", 50),
   ("sixty", 60), ("seventy", 70), ("eighty", 80), ("ninety", 90)]

def largeNumbers : List (String × Int) :=
  [("thousand", 1000), ("million", 1000000), ("billion", 1000000000)]

/-- Decides whether `pat` occurs as a contiguous sublist of the second
argument.  The Go source classifies dollar/cent markers with the unanchored
regular expressions `dollars?.?` and `cents?.?` via `regexp.Match`, which
reports whether the string contains a match anywhere; since the optional
parts may match empty, `dollars?.?` matches a string iff it contains the
substring "dollar", and `cents?.?` iff it contains "cent". -/
def hasSub (pat : List Char) : List Char → Bool
  | [] => pat.isEmpty
  | c :: rest => pat.isPrefixOf (c :: rest) || hasSub pat rest

def dollarPat : List Char := "dollar".toList

def centPat : List Char := "cent".toList

def newItemFromMap (s : String) : Item :=
  match singleNumbers.lookup s with
  | some v => { typ := .itemSingle, key := s, val := v }
  | none =>
    match directNumbers.lookup s with
    | some v => { typ := .itemDirect, key := s, val := v }
    | none =>
      match tenPrefixNumbers.lookup s with
      | some v => { typ := .itemTenPfx, key := s, val := v }
      | none =>
        match largeNumbers.lookup s with
        | some v => { typ := .itemLarge, key := s, val := v }
        | none => { typ := .itemDefault, key := s }

def newItem (s : String) : Item :=
  if s = "zero" then { typ := .itemZero, key := s }
  else if s = "hundred" then { typ := .itemHundred, key := s, val := 100 }
  else if hasSub dollarPat s.toList then { typ := .itemDollars, key := s }
  else if hasSub centPat s.toList then { typ := .itemCents, key := s }
  else newItemFromMap s

/-- Embedding of Go `preprocess`: lowercase, drop ',' and '.', turn '-'
into a space.  `Char.toLower` agrees with Go `strings.ToLower` on the
ASCII inputs at hand. -/
def preprocess (s : String) : String :=
  String.mk (((s.toList.map Char.toLower).filter
    (fun c => !(c == ',' || c == '.'))).map
    (fun c => if c == '-' then ' ' else c))

def isSpaceChar (c : Char) : Bool :=
  c == ' ' || c == '\t' || c == '\n' || c == '\r'

def fieldsGo : List Char → List Char → List (List Char)
  | cur, [] => if cur.isEmpty then [] else [cur.reverse]
  | cur, c :: rest =>
    if isSpaceChar c then
      if cur.isEmpty then fieldsGo [] rest else cur.reverse :: fieldsGo [] rest
    else fieldsGo (c :: cur) rest

/-- Embedding of Go `strings.Fields`: split on whitespace, dropping empty
fields (the inputs at hand contain only ASCII whitespace). -/
def fields (s : String) : List String :=
  (fieldsGo [] s.toList).map (fun cs => String.mk cs)

structure Parser where
  items : List Item
  pos : Nat
  prev : Int
  sum : Int
  dollars : Int
  cents : Int
  dollarsDone : Bool
  err : Option ParseErr

def newParser (s : String) : Parser :=
  { items := (fields (preprocess s)).map newItem
    pos := 0, prev := 0, sum := 0, dollars := 0, cents := 0
    dollarsDone := false, err := none }

/-- Embedding of Go `(*parser).peek`: the item at the cursor, or an
`itemEOL` item when the cursor is at or past the end. -/
def peek (p : Parser) : Item :=
  match p.items.get? p.pos with
  | some it => it
  | none => { typ := .itemEOL }

/-- The state-transition functions of the source, one constructor per Go
`parseFn`-valued function. -/
inductive Fn where
  | parse
  | parseZero
  | parseSingle
  | parseDirect
  | parseTenPfx
  | parseHundred
  | parseLarge
  | parseDollars
  | parseCents
  | parseDefault
  deriving DecidableEq

/-- Go zero value `item{}`, passed by `parse` as the `after` argument. -/
def emptyItem : Item := { typ := .itemError }

/-- Embedding of Go `parseError`: records the error on the parser (the
chained loop then stops, i.e. the caller returns `none`). -/
def parseErrorSet (p : Parser) (i after : Item) : Parser :=
  { p with err := some (
      match i.typ with
      | .itemError => ParseErr.badNumber i.key
      | _ =>
        if after.typ = .itemError then ParseErr.unexpectedStart i.key
        else ParseErr.unexpectedAfter i.key after.key) }

/-- One transition of the state machine: Go's `state = state(p)`.  Each
branch is a line-by-line translation of the corresponding Go function;
`(some f, q)` means the Go function returned the function `f` after
mutating the parser to `q`, `(none, q)` means it returned `nil`. -/
def step : Fn → Parser → Option Fn × Parser
  | .parse, p =>
    let i := peek p
    match i.typ with
    | .itemZero => (some .parseZero, p)
    | .itemSingle => (some .parseSingle, p)
    | .itemDirect => (some .parseDirect, p)
    | .itemTenPfx => (some .parseTenPfx, p)
    | .itemDefault => (some .parseDefault, p)
    | _ => (none, parseErrorSet p i emptyItem)
  | .parseZero, p =>
    let i := peek p
    let p1 := { p with pos := p.pos + 1 }
    let nx := peek p1
    match nx.typ with
    | .itemDollars => (some .parseDollars, p1)
    | .itemCents => (some .parseCents, p1)
    | .itemEOL => (none, p1)
    | _ => (none, parseErrorSet p1 nx i)
  | .parseSingle, p =>
    let i := peek p
    let p1 := { p with pos := p.pos + 1 }
    let nx := peek p1
    match nx.typ with
    | .itemHundred => (some .parseHundred, { p1 with sum := p1.sum + p1.prev, prev := i.val })
    | .itemLarge => (some .parseLarge, { p1 with prev := i.val })
    | .itemDollars => (some .parseDollars, { p1 with sum := p1.sum + p1.prev + i.val })
    | .itemCents => (some .parseCents, { p1 with sum := p1.sum + p1.prev + i.val })
    | .itemDefault => (some .parseDefault, p1)
    | .itemEOL => (none, p1)
    | _ => (none, parseErrorSet p1 nx i)
  | .parseDirect, p =>
    let i := peek p
    let p1 := { p with pos := p.pos + 1 }
    let nx := peek p1
    match nx.typ with
    | .itemHundred => (some .parseLarge, { p1 with prev := i.val })
    | .itemLarge => (some .parseLarge, { p1 with prev := i.val })
    | .itemDollars => (some .parseDollars, { p1 with sum := p1.sum + p1.prev + i.val })
    | .itemCents => (some .parseCents, { p1 with sum := p1.sum + p1.prev + i.val })
    | .itemDefault => (some .parseDefault, p1)
    | _ => (none, parseErrorSet p1 nx i)
  | .parseTenPfx, p =>
    let i := peek p
    let p1 := { p with pos := p.pos + 1 }
    let nx := peek p1
    match nx.typ with
    | .itemSingle =>
      let p2 := { p1 with prev := p1.prev + i.val + nx.val, pos := p1.pos + 1 }
      let ahead := peek p2
      match ahead.typ with
      | .itemHundred => (some .parseHundred, { p2 with sum := p2.sum + p2.prev * ahead.val, prev := 0 })
      | .itemLarge => (some .parseLarge, p2)
      | .itemDollars => (some .parseDollars, { p2 with sum := p2.sum + p2.prev })
      | .itemCents => (some .parseCents, { p2 with sum := p2.sum + p2.prev })
      | .itemDefault => (some .parseDefault, { p2 with sum := p2.sum + p2.prev })
      | _ => (some .parseSingle, p2)
    | .itemLarge => (some .parseLarge, { p1 with prev := i.val })
    | .itemDefault => (some .parseDefault, p1)
    | .itemDollars => (some .parseDollars, { p1 with sum := p1.sum + p1.prev + i.val })
    | .itemCents => (some .parseCents, { p1 with sum := p1.sum + p1.prev + i.val })
    | _ => (none, parseErrorSet p1 nx i)
  | .parseHundred, p =>
    let i := peek p
    let p1 := { p with pos := p.pos + 1, prev := p.prev * i.val }
    let nx := peek p1
    match nx.typ with
    | .itemSingle => (some .parseSingle, p1)
    | .itemDirect => (some .parseDirect, p1)
    | .itemTenPfx => (some .parseTenPfx, p1)
    | .itemLarge => (some .parseLarge, p1)
    | .itemDollars => (some .parseDollars, { p1 with sum := p1.sum + p1.prev })
    | .itemDefault => (some .parseDefault, p1)
    | _ => (none, parseErrorSet p1 nx i)
  | .parseLarge, p =>
    let i := peek p
    let p1 := { p with pos := p.pos + 1, sum := p.sum + p.prev * i.val, prev := 0 }
    let nx := peek p1
    match nx.typ with
    | .itemSingle => (some .parseSingle, p1)
    | .itemDirect => (some .parseDirect, p1)
    | .itemTenPfx => (some .parseTenPfx, p1)
    | .itemDollars => (some .parseDollars, p1)
    | .itemDefault => (some .parseDefault, p1)
    | _ => (none, parseErrorSet p1 nx i)
  | .parseDollars, p =>
    let p0 := { p with dollarsDone := true, dollars := p.sum, sum := 0, prev := 0 }
    let i := peek p0
    let p1 := { p0 with pos := p0.pos + 1 }
    let nx := peek p1
    match nx.typ with
    | .itemSingle => (some .parseSingle, p1)
    | .itemDirect => (some .parseDirect, p1)
    | .itemTenPfx => (some .parseTenPfx, p1)
    | .itemDefault => (some .parseDefault, p1)
    | .itemEOL => (none, p1)
    | _ => (none, parseErrorSet p1 nx i)
  | .parseCents, p => (none, { p with cents := p.sum, sum := 0, prev := 0 })
  | .parseDefault, p =>
    let i := peek p
    let p1 := { p with pos := p.pos + 1 }
    let nx := peek p1
    match nx.typ with
    | .itemZero => (some .parseZero, p1)
    | .itemSingle => (some .parseSingle, p1)
    | .itemDirect => (some .parseDirect, p1)
    | .itemTenPfx => (some .parseTenPfx, p1)
    | .itemHundred => (some .parseHundred, p1)
    | .itemDefault => (some .parseDefault, p1)
    | .itemDollars => (some .parseDollars, p1)
    | .itemCents => (some .parseCents, p1)
    | .itemEOL =>
      (none, match p1.dollarsDone with
        | true => { p1 with cents := p1.sum }
        | false => p1)
    | _ => (none, parseErrorSet p1 nx i)

/-- Fuel-indexed iteration of `step`, modelling Go's
`for state := parse; state != nil; { state = state(p) }`.  The result is
`none` only when the fuel runs out before the chain reaches `nil`. -/
def run : Nat → Option Fn × Parser → Option Parser
  | _, (none, p) => some p
  | 0, (some _, _) => none
  | n + 1, (some f, p) => run n (step f p)

/-- Plain iteration of `step`, used to inspect intermediate parser states. -/
def stepN : Nat → Option Fn × Parser → Option Fn × Parser
  | 0, x => x
  | _ + 1, (none, p) => (none, p)
  | n + 1, (some f, p) => stepN n (step f p)

/-- Embedding of Go `Parse`: run the state machine, then return the error
if one was recorded, else `dollars*100 + cents`. -/
def Parse (s : String) : Except ParseErr Int :=
  let p := newParser s
  match run (p.items.length + 2) (some Fn.parse, p) with
  | none => Except.error ParseErr.outOfFuel
  | some q =>
    match q.err with
    | some e => Except.error e
    | none => Except.ok (q.dollars * 100 + q.cents)

example : Parse "zero dollars and thirty four cents" = Except.ok 34 := rfl

example : Parse "one dollar" = Except.ok 100 := rfl

example : Parse "seventeen hundred dollars" = Except.ok 170000 := rfl

example : Parse "two hundred four dollars and eighteen cents" = Except.ok 20418 := rfl

example : Parse "three thousand six hundred twelve dollars and sixty one cents" =
    Except.ok 361261 := rfl

example : Parse "ten thousand dollars and two cents" = Except.ok 1000002 := rfl

example : Parse "forty five hundred dollars" = Except.ok 450000 := rfl

example : Parse "forty-five dollars" = Except.ok 4500 := rfl

example : Parse "four thousand, four hundred thirty-two dollars" = Except.ok 443200 := rfl

example :
    Parse "nine hundred ninety nine thousand nine hundred ninety nine dollars" =
      Except.ok 99999900 := rfl

example : Parse "five billion dollars" = Except.ok 500000000000 := rfl

/-
The repository's Parse above is the currency engine: with no dollars/cents
marker among the tokens the final value is dollars*100 + cents = 0, so the
plain-profile behaviour (bare number-word input evaluating to its value)
is not implemented by the code under src/.  The repository does carry the
plain engine's test file, but not its source, so the plain profile is
modelled from the spec below (section 4.2 of the spec).
-/

/-- Modelled from the spec: token categories of the plain-profile lexicon
(spec section 4.1), whose source is not under src/.  The plain lexicon has
the ligature "and" as its own category and no dollars/cents markers. -/
inductive PCat where
  | zeroC
  | unitC
  | teenC
  | tensC
  | hundredC
  | scaleC
  | andC
  | unknownC
  deriving DecidableEq

structure PTok where
  cat : PCat
  val : Int := 0
  key : String := ""
  deriving DecidableEq

/-- Modelled from the spec: the plain profile's scale words, "exactly the
four magnitudes thousand/million/billion/trillion" (spec section 4.1). -/
def plainLargeNumbers : List (String × Int) :=
  [("thousand", 1000), ("million", 1000000), ("billion", 1000000000),
   ("trillion", 1000000000000)]

/-- Modelled from the spec: the plain profile's tokenizer (spec section
4.1); it never fails, words in no table become `unknownC`. -/
def pTok (s : String) : PTok :=
  if s = "zero" then { cat := .zeroC, key := s }
  else if s = "hundred" then { cat := .hundredC, val := 100, key := s }
  else if s = "and" then { cat := .andC, key := s }
  else
    match singleNumbers.lookup s with
    | some v => { cat := .unitC, val := v, key := s }
    | none =>
      match directNumbers.lookup s with
      | some v => { cat := .teenC, val := v, key := s }
      | none =>
        match tenPrefixNumbers.lookup s with
        | some v => { cat := .tensC, val := v, key := s }
        | none =>
          match plainLargeNumbers.lookup s with
          | some v => { cat := .scaleC, val := v, key := s }
          | none => { cat := .unknownC, key := s }

/-- Modelled from the spec: the states of the plain-profile grammar (spec
section 4.2), with the group value carried by the unit/teen/tens states. -/
inductive PState where
  | start
  | afterZero
  | afterUnit (v : Int)
  | afterTeen (v : Int)
  | afterTens (t : Int)
  | afterHundred
  | afterScale
  | afterAnd

/-- Modelled from the spec: the plain-profile state machine of spec section
4.2, transition for transition: `prev` is the pending (not yet scaled)
group, `sum` the fully scaled completed groups.  On `AfterHundred` entry
`prev` has already been multiplied by 100; on `AfterScale` entry
`sum += prev * weight` has been folded and `prev` reset to 0; a teen may
not be followed by "hundred" (spec section 4.2, `AfterTeen`). -/
def plainRun : PState → Int → Int → List PTok → Except String Int
  | .start, _, _, [] => .error "empty input"
  | .start, prev, sum, t :: rest =>
    match t.cat with
    | .zeroC => plainRun .afterZero prev sum rest
    | .unitC => plainRun (.afterUnit t.val) prev sum rest
    | .teenC => plainRun (.afterTeen t.val) prev sum rest
    | .tensC => plainRun (.afterTens t.val) prev sum rest
    | _ => .error ("unexpected start " ++ t.key)
  | .afterZero, _, _, [] => .ok 0
  | .afterZero, _, _, t :: _ => .error ("zero does not combine with " ++ t.key)
  | .afterUnit v, prev, sum, [] => .ok (sum + prev + v)
  | .afterUnit v, prev, sum, t :: rest =>
    match t.cat with
    | .hundredC => plainRun .afterHundred (v * 100) (sum + prev) rest
    | .scaleC => plainRun .afterScale 0 (sum + v * t.val) rest
    | _ => .error ("unexpected " ++ t.key)
  | .afterTeen v, prev, sum, [] => .ok (sum + prev + v)
  | .afterTeen v, _, sum, t :: rest =>
    match t.cat with
    | .scaleC => plainRun .afterScale 0 (sum + v * t.val) rest
    | _ => .error ("unexpected " ++ t.key)
  | .afterTens t0, prev, sum, [] => .ok (sum + prev + t0)
  | .afterTens t0, prev, sum, t :: rest =>
    match t.cat with
    | .unitC =>
      match rest with
      | [] => .ok (sum + (prev + t0 + t.val))
      | a :: rest2 =>
        match a.cat with
        | .hundredC => plainRun .afterHundred 0 (sum + (prev + t0 + t.val) * 100) rest2
        | .scaleC => plainRun .afterScale 0 (sum + (prev + t0 + t.val) * a.val) rest2
        | _ => .error ("unexpected " ++ a.key)
    | .scaleC => plainRun .afterScale 0 (sum + t0 * t.val) rest
    | _ => .error ("unexpected " ++ t.key)
  | .afterHundred, prev, sum, [] => .ok (sum + prev)
  | .afterHundred, prev, sum, t :: rest =>
    match t.cat with
    | .unitC => plainRun (.afterUnit t.val) prev sum rest
    | .teenC => plainRun (.afterTeen t.val) prev sum rest
    | .tensC => plainRun (.afterTens t.val) prev sum rest
    | .scaleC => plainRun .afterScale 0 (sum + prev * t.val) rest
    | .andC => plainRun .afterAnd prev sum rest
    | _ => .error ("unexpected " ++ t.key)
  | .afterScale, prev, sum, [] => .ok (sum + prev)
  | .afterScale, prev, sum, t :: rest =>
    match t.cat with
    | .unitC => plainRun (.afterUnit t.val) prev sum rest
    | .teenC => plainRun (.afterTeen t.val) prev sum rest
    | .tensC => plainRun (.afterTens t.val) prev sum rest
    | .andC => plainRun .afterAnd prev sum rest
    | _ => .error ("unexpected " ++ t.key)
  | .afterAnd, _, _, [] => .error "dangling and"
  | .afterAnd, prev, sum, t :: rest =>
    match t.cat with
    | .unitC => plainRun (.afterUnit t.val) prev sum rest
    | .teenC => plainRun (.afterTeen t.val) prev sum rest
    | .tensC => plainRun (.afterTens t.val) prev sum rest
    | _ => .error ("unexpected " ++ t.key)

/-- Modelled from the spec: the plain-profile entry point, sharing the
source's normalizer `preprocess`/`fields`. -/
def plainParse (s : String) : Except String Int :=
  plainRun .start 0 0 ((fields (preprocess s)).map pTok)

example : plainParse "zero" = Except.ok 0 := rfl

example : plainParse "forty five" = Except.ok 45 := rfl

example : plainParse "three thousand four hundred" = Except.ok 3400 := rfl

example : plainParse "three thousand and four hundred" = Except.ok 3400 := rfl

example : plainParse "six trillion" = Except.ok 6000000000000 := rfl

example : plainParse "nine hundred ninety nine thousand nine hundred ninety nine" =
    Except.ok 999999 := rfl

example : plainParse "three hundred thousand" = Except.ok 300000 := rfl

/-- Statement of the spec's wording for the cents-marker pattern of claim
C6: the token is "cent" or "cents", allowing at most one trailing extra
character (the spec says trailing punctuation; allowing an arbitrary
trailing character is a superset, which only strengthens a refutation). -/
def centsMarkerSpec (s : String) : Bool :=
  s.toList == "cent".toList || s.toList == "cents".toList ||
  s.toList.dropLast == "cent".toList || s.toList.dropLast == "cents".toList

lemma largeNumbers_lookup_keys (s : String) (v : Int)
    (h : List.lookup s largeNumbers = some v) :
    s = "thousand" ∨ s = "million" ∨ s = "billion" := by
  by_cases h1 : s = "thousand"
  · exact Or.inl h1
  by_cases h2 : s = "million"
  · exact Or.inr (Or.inl h2)
  by_cases h3 : s = "billion"
  · exact Or.inr (Or.inr h3)
  have e1 : (s == "thousand") = false := by simp [h1]
  have e2 : (s == "million") = false := by simp [h2]
  have e3 : (s == "billion") = false := by simp [h3]
  simp [largeNumbers, List.lookup, e1, e2, e3] at h

lemma newItemFromMap_typ_cases (s : String) :
    (newItemFromMap s).typ = .itemSingle ∨ (newItemFromMap s).typ = .itemDirect ∨
    (newItemFromMap s).typ = .itemTenPfx ∨ (newItemFromMap s).typ = .itemLarge ∨
    (newItemFromMap s).typ = .itemDefault := by
  unfold newItemFromMap
  repeat' split
  all_goals simp

/-- C9: whenever the parser consumes a scale word of weight `s` (the
`parseLarge` transition entered with an `itemLarge` item at the cursor), it
performs `sum += prev * s`, resets `prev` to 0, and advances past the scale
word, so `sum` holds only fully scaled completed groups and `prev` the
not-yet-scaled current group. -/
theorem C9_scale_folds_prev_into_sum (p : Parser) (i : Item)
    (hpk : peek p = i) (hl : i.typ = itemType.itemLarge) :
    (step Fn.parseLarge p).2.sum = p.sum + p.prev * i.val ∧
    (step Fn.parseLarge p).2.prev = 0 ∧
    (step Fn.parseLarge p).2.pos = p.pos + 1 := by
  subst hpk
  simp only [step]
  repeat' split
  all_goals exact ⟨rfl, rfl, rfl⟩

/-- Witness for C9 at the concrete parser state of "three thousand" with
the cursor on "thousand". -/
theorem C9_scale_folds_prev_into_sum_witness :
    (step Fn.parseLarge { newParser "three thousand" with pos := 1, prev := 3 }).2.sum =
      ({ newParser "three thousand" with pos := 1, prev := 3 } : Parser).sum +
      ({ newParser "three thousand" with pos := 1, prev := 3 } : Parser).prev * 1000 ∧
    (step Fn.parseLarge { newParser "three thousand" with pos := 1, prev := 3 }).2.prev = 0 ∧
    (step Fn.parseLarge { newParser "three thousand" with pos := 1, prev := 3 }).2.pos = 1 + 1 :=
  C9_scale_folds_prev_into_sum
    { newParser "three thousand" with pos := 1, prev := 3 }
    { typ := .itemLarge, key := "thousand", val := 1000 } rfl rfl

/-- C8 (corrected): the dollars total captured at a dollars marker is not
frozen.  In `Parse "one dollar two dollars"` the parser state after the
third transition has consumed the first dollars marker (`dollarsDone` set,
`dollars = 1`), yet after the fifth transition the second dollars marker
has overwritten `dollars` with 2, and the parse succeeds with 200. -/
theorem C8_counterexample_second_dollar_marker_overwrites :
    (stepN 3 (some Fn.parse, newParser "one dollar two dollars")).2.dollarsDone = true ∧
    (stepN 3 (some Fn.parse, newParser "one dollar two dollars")).2.dollars = 1 ∧
    (stepN 5 (some Fn.parse, newParser "one dollar two dollars")).2.dollars = 2 ∧
    Parse "one dollar two dollars" = Except.ok 200 :=
  ⟨rfl, rfl, rfl, rfl⟩

/-- C8 (amended): the `dollars` field and the `dollarsDone` flag are
modified only by the dollars-marker transition (`parseDollars`, which
overwrites `dollars` with the currently accumulated sum); every other
transition leaves them unchanged, and a cents marker terminates
accumulation, storing the accumulated sum into `cents`. -/
theorem C8_amended_dollars_written_only_by_dollars_transition :
    (∀ (f : Fn) (p : Parser), f ≠ Fn.parseDollars →
      (step f p).2.dollars = p.dollars ∧ (step f p).2.dollarsDone = p.dollarsDone) ∧
    (∀ p : Parser, (step Fn.parseCents p).1 = none ∧ (step Fn.parseCents p).2.cents = p.sum) := by
  constructor
  · intro f p hf
    cases f
    case parseDollars => exact absurd rfl hf
    all_goals simp only [step]
    all_goals repeat' split
    all_goals first | exact ⟨rfl, rfl⟩ | trivial
  · intro p
    exact ⟨rfl, rfl⟩

/-- Witness for C8's amended theorem: a non-dollars transition on a
concrete state leaves the dollars fields unchanged. -/
theorem C8_amended_witness :
    (step Fn.parseSingle (newParser "one")).2.dollars = (newParser "one").dollars ∧
    (step Fn.parseSingle (newParser "one")).2.dollarsDone = (newParser "one").dollarsDone :=
  C8_amended_dollars_written_only_by_dollars_transition.1 Fn.parseSingle (newParser "one")
    (by decide)

/-- C7: a teen word followed by "hundred" is rejected when the input ends
there (the plain-number reading), but with a dollars marker the currency
engine accepts it as the teen multiplied by 100 (so
`Parse "seventeen hundred dollars" = 170000` cents). -/
theorem C7_teen_hundred (w : String) (v : Int) (h : (w, v) ∈ directNumbers) :
    (∃ e, Parse (w ++ " hundred") = Except.error e) ∧
    Parse (w ++ " hundred dollars") = Except.ok (v * 100 * 100) := by
  fin_cases h <;> exact ⟨⟨_, rfl⟩, rfl⟩

/-- Witness for C7 at "seventeen". -/
theorem C7_teen_hundred_witness :
    (∃ e, Parse ("seventeen" ++ " hundred") = Except.error e) ∧
    Parse ("seventeen" ++ " hundred dollars") = Except.ok (17 * 100 * 100) :=
  C7_teen_hundred "seventeen" 17 (by decide)

/-- C1: in the plain profile (modelled from the spec, since only its tests
and not its source are in the repository), a tens word followed by a unit
word parses to their sum, and commas/hyphens are cosmetic. -/
theorem C1_tens_unit_and_cosmetic_separators :
    (∀ (tw : String) (tv : Int) (uw : String) (uv : Int),
      (tw, tv) ∈ tenPrefixNumbers → (uw, uv) ∈ singleNumbers →
      plainParse (tw ++ " " ++ uw) = Except.ok (tv + uv)) ∧
    plainParse "forty five" = Except.ok 45 ∧
    plainParse "forty-five" = Except.ok 45 ∧
    plainParse "four thousand, four hundred thirty-two" = Except.ok 4432 := by
  refine ⟨?_, rfl, rfl, rfl⟩
  intro tw tv uw uv ht hu
  fin_cases ht <;> fin_cases hu <;> rfl

/-- Witness for C1's general part at "forty" + "five". -/
theorem C1_witness :
    plainParse ("forty" ++ " " ++ "five") = Except.ok (40 + 5) :=
  C1_tens_unit_and_cosmetic_separators.1 "forty" 40 "five" 5 (by decide) (by decide)

/-- C2 (corrected): inputs the claim lists as errors do error except for
"a", "and" and "two and three", which the code accepts with value 0:
words absent from the lexicon (including "and", which is in no table of
this source) are skipped by the Unknown-token state `parseDefault`. -/
theorem C2_amended_error_scenarios :
    (∃ e, Parse "" = Except.error e) ∧
    (∃ e, Parse "hundred" = Except.error e) ∧
    (∃ e, Parse "thousand" = Except.error e) ∧
    (∃ e, Parse "zero four" = Except.error e) ∧
    (∃ e, Parse "five three" = Except.error e) ∧
    (∃ e, Parse "twelve seventeen" = Except.error e) ∧
    (∃ e, Parse "five hundred hundred" = Except.error e) ∧
    (∃ e, Parse "six thousand hundred" = Except.error e) ∧
    Parse "a" = Except.ok 0 ∧
    Parse "and" = Except.ok 0 ∧
    Parse "two and three" = Except.ok 0 :=
  ⟨⟨_, rfl⟩, ⟨_, rfl⟩, ⟨_, rfl⟩, ⟨_, rfl⟩, ⟨_, rfl⟩, ⟨_, rfl⟩, ⟨_, rfl⟩, ⟨_, rfl⟩,
    rfl, rfl, rfl⟩

/-- C2 (counterexample): three of the claim's must-error inputs are
accepted by `Parse` with value 0 and no error. -/
theorem C2_counterexample_unknowns_accepted :
    Parse "a" = Except.ok 0 ∧ Parse "and" = Except.ok 0 ∧
    Parse "two and three" = Except.ok 0 :=
  ⟨rfl, rfl, rfl⟩

/-- C3 (counterexample): "trillion" is not in this source's lexicon — it
tokenizes as an Unknown item — and `Parse "six trillion"` returns 0 with
no error instead of 6000000000000 or a parse error. -/
theorem C3_counterexample_trillion_not_recognized :
    (newItem "trillion").typ = itemType.itemDefault ∧
    Parse "six trillion" = Except.ok 0 :=
  ⟨rfl, rfl⟩

/-- C3 (amended): the lexicon's scale words are exactly thousand=10^3,
million=10^6 and billion=10^9; "trillion" is not recognized (it becomes an
Unknown token), and `Parse "six trillion"` returns 0 without error — the
unknown word is skipped — rather than a value or a parse error. -/
theorem C3_amended_scale_words :
    (∀ s : String, (newItem s).typ = itemType.itemLarge ↔
      (s = "thousand" ∨ s = "million" ∨ s = "billion")) ∧
    (newItem "thousand").val = 1000 ∧
    (newItem "million").val = 1000000 ∧
    (newItem "billion").val = 1000000000 ∧
    (newItem "trillion").typ = itemType.itemDefault ∧
    Parse "six trillion" = Except.ok 0 := by
  refine ⟨fun s => ⟨fun ht => ?_, fun hs => ?_⟩, rfl, rfl, rfl, rfl, rfl⟩
  · unfold newItem at ht
    split_ifs at ht with h1 h2 h3 h4
    unfold newItemFromMap at ht
    cases e1 : List.lookup s singleNumbers with
    | some v => simp [e1] at ht
    | none =>
      cases e2 : List.lookup s directNumbers with
      | some v => simp [e1, e2] at ht
      | none =>
        cases e3 : List.lookup s tenPrefixNumbers with
        | some v => simp [e1, e2, e3] at ht
        | none =>
          cases e4 : List.lookup s largeNumbers with
          | some v => exact largeNumbers_lookup_keys s v e4
          | none => simp [e1, e2, e3, e4] at ht
  · rcases hs with rfl | rfl | rfl <;> rfl

/-- Witness for C3's amended theorem at "thousand". -/
theorem C3_amended_witness :
    (newItem "thousand").typ = itemType.itemLarge :=
  (C3_amended_scale_words.1 "thousand").mpr (Or.inl rfl)

/-- C6 (counterexample): the marker regexes are unanchored, so "percent" —
which is neither "cent" nor "cents" with optional trailing punctuation
(`centsMarkerSpec` even allows one arbitrary trailing character) — is
classified as a CentsMarker. -/
theorem C6_counterexample_percent_is_cents_marker :
    (newItem "percent").typ = itemType.itemCents ∧
    centsMarkerSpec "percent" = false :=
  ⟨rfl, rfl⟩

/-- C6 (amended): a token is a DollarsMarker iff it is neither "zero" nor
"hundred" and contains "dollar" as a substring (the regex `dollars?.?` is
unanchored); a CentsMarker iff additionally it does not contain "dollar"
but contains "cent"; any word passing these tests that is in no lexicon
table becomes an Unknown token; and tokenization never fails (it never
produces an error or end-of-input item). -/
theorem C6_amended_marker_classification :
    (∀ s : String, (newItem s).typ = itemType.itemDollars ↔
      (s ≠ "zero" ∧ s ≠ "hundred" ∧ hasSub dollarPat s.toList = true)) ∧
    (∀ s : String, (newItem s).typ = itemType.itemCents ↔
      (s ≠ "zero" ∧ s ≠ "hundred" ∧ hasSub dollarPat s.toList = false ∧
        hasSub centPat s.toList = true)) ∧
    (∀ s : String, s ≠ "zero" → s ≠ "hundred" →
      hasSub dollarPat s.toList = false → hasSub centPat s.toList = false →
      List.lookup s singleNumbers = none → List.lookup s directNumbers = none →
      List.lookup s tenPrefixNumbers = none → List.lookup s largeNumbers = none →
      (newItem s).typ = itemType.itemDefault) ∧
    (∀ s : String, (newItem s).typ ≠ itemType.itemError ∧
      (newItem s).typ ≠ itemType.itemEOL) := by
  refine ⟨fun s => ⟨fun ht => ?_, fun hs => ?_⟩,
    fun s => ⟨fun ht => ?_, fun hs => ?_⟩,
    fun s h1 h2 hd hc e1 e2 e3 e4 => ?_, fun s => ?_⟩
  · unfold newItem at ht
    split_ifs at ht with h1 h2 h3 h4
    · exact ⟨h1, h2, h3⟩
    all_goals rcases newItemFromMap_typ_cases s with h | h | h | h | h <;> simp [h] at ht
  · have h3d : hasSub dollarPat s.data = true := hs.2.2
    simp [newItem, hs.1, hs.2.1, h3d]
  · unfold newItem at ht
    split_ifs at ht with h1 h2 h3 h4
    · have h3f : hasSub dollarPat s.toList = false := by
        cases hb : hasSub dollarPat s.toList
        · rfl
        · exact absurd hb h3
      exact ⟨h1, h2, h3f, h4⟩
    all_goals rcases newItemFromMap_typ_cases s with h | h | h | h | h <;> simp [h] at ht
  · have h3d : hasSub dollarPat s.data = false := hs.2.2.1
    have h4d : hasSub centPat s.data = true := hs.2.2.2
    simp [newItem, hs.1, hs.2.1, h3d, h4d]
  · have hdd : hasSub dollarPat s.data = false := hd
    have hcd : hasSub centPat s.data = false := hc
    simp [newItem, newItemFromMap, h1, h2, hdd, hcd, e1, e2, e3, e4]
  · constructor <;>
      · unfold newItem
        split_ifs
        case _ => simp
        case _ => simp
        case _ => simp
        case _ => simp
        all_goals rcases newItemFromMap_typ_cases s with h | h | h | h | h <;> simp [h]

/-- Witness for C6's amended theorem at "dollars". -/
theorem C6_amended_witness :
    (newItem "dollars").typ = itemType.itemDollars :=
  (C6_amended_marker_classification.1 "dollars").mpr ⟨by decide, by decide, rfl⟩

/-- C4: the two currency examples hold, and in general every successful
`Parse` returns exactly `dollars * 100 + cents` computed from the final
parser state. -/
theorem C4_result_is_dollars_times_100_plus_cents :
    Parse "two hundred four dollars and eighteen cents" = Except.ok 20418 ∧
    Parse "zero dollars and thirty four cents" = Except.ok 34 ∧
    (∀ (s : String) (v : Int), Parse s = Except.ok v →
      ∃ q, run ((newParser s).items.length + 2) (some Fn.parse, newParser s) = some q ∧
        q.err = none ∧ v = q.dollars * 100 + q.cents) := by
  refine ⟨rfl, rfl, ?_⟩
  intro s v h
  simp only [Parse] at h
  cases hr : run ((newParser s).items.length + 2) (some Fn.parse, newParser s) with
  | none => rw [hr] at h; simp at h
  | some q =>
    rw [hr] at h
    cases hq : q.err with
    | some e => simp [hq] at h
    | none =>
      simp [hq] at h
      exact ⟨q, rfl, hq, h.symm⟩

/-- Witness for C4's general part at "one dollar" (which parses to 100). -/
theorem C4_witness :
    ∃ q, run ((newParser "one dollar").items.length + 2)
        (some Fn.parse, newParser "one dollar") = some q ∧
      q.err = none ∧ (100 : Int) = q.dollars * 100 + q.cents :=
  C4_result_is_dollars_times_100_plus_cents.2.2 "one dollar" 100 rfl

/-- A token sequence without dollars or cents markers. -/
abbrev NoMark (l : List Item) : Prop :=
  ∀ it ∈ l, it.typ ≠ itemType.itemDollars ∧ it.typ ≠ itemType.itemCents

lemma get?_mem_list : ∀ (l : List Item) (n : Nat) (it : Item),
    l.get? n = some it → it ∈ l := by
  intro l
  induction l with
  | nil => intro n it h; simp [List.get?] at h
  | cons a t ih =>
    intro n it h
    cases n with
    | zero =>
      simp [List.get?] at h
      exact h ▸ List.mem_cons_self a t
    | succ m => exact List.mem_cons_of_mem a (ih m it h)

lemma typ_no_marker (t : itemType) (q : Parser) (ht : (peek q).typ = t)
    (hm : NoMark q.items) :
    t ≠ itemType.itemDollars ∧ t ≠ itemType.itemCents := by
  subst ht
  cases hg : q.items.get? q.pos with
  | none =>
    have hp : peek q = { typ := .itemEOL, key := "", val := 0 } := by
      unfold peek; rw [hg]
    rw [hp]
    exact ⟨by decide, by decide⟩
  | some it =>
    have hp : peek q = it := by unfold peek; rw [hg]
    rw [hp]
    exact hm it (get?_mem_list q.items q.pos it hg)

lemma step_preserve (f : Fn) (p : Parser)
    (hm : NoMark p.items)
    (h1 : p.dollarsDone = false) (h2 : p.dollars = 0) (h3 : p.cents = 0)
    (hf1 : f ≠ Fn.parseDollars) (hf2 : f ≠ Fn.parseCents) :
    (step f p).2.items = p.items ∧ (step f p).2.dollarsDone = false ∧
    (step f p).2.dollars = 0 ∧ (step f p).2.cents = 0 ∧
    (step f p).1 ≠ some Fn.parseDollars ∧ (step f p).1 ≠ some Fn.parseCents := by
  cases f
  case parseDollars => exact absurd rfl hf1
  case parseCents => exact absurd rfl hf2
  all_goals simp only [step]
  all_goals repeat' split
  all_goals first
    | (refine ⟨rfl, h1, h2, h3, ?_, ?_⟩ <;> simp
       done)
    | trivial
    | (rename_i x heq; exact absurd rfl ((typ_no_marker _ _ heq hm).1))
    | (rename_i x heq; exact absurd rfl ((typ_no_marker _ _ heq hm).2))
    | (rename_i heq; exact absurd (h1.symm.trans heq) (by decide))

lemma run_preserve : ∀ (n : Nat) (o : Option Fn) (p : Parser) (q : Parser),
    NoMark p.items → p.dollarsDone = false → p.dollars = 0 → p.cents = 0 →
    o ≠ some Fn.parseDollars → o ≠ some Fn.parseCents →
    run n (o, p) = some q →
    q.dollarsDone = false ∧ q.dollars = 0 ∧ q.cents = 0 := by
  intro n
  induction n with
  | zero =>
    intro o p q hm h1 h2 h3 ho1 ho2 hrun
    cases o with
    | none =>
      injection hrun with hpq
      exact hpq ▸ ⟨h1, h2, h3⟩
    | some f => cases hrun
  | succ n ih =>
    intro o p q hm h1 h2 h3 ho1 ho2 hrun
    cases o with
    | none =>
      injection hrun with hpq
      exact hpq ▸ ⟨h1, h2, h3⟩
    | some f =>
      have hf1 : f ≠ Fn.parseDollars := fun h => ho1 (by rw [h])
      have hf2 : f ≠ Fn.parseCents := fun h => ho2 (by rw [h])
      obtain ⟨hit, hdd, hdol, hcen, hnd, hnc⟩ :=
        step_preserve f p hm h1 h2 h3 hf1 hf2
      have hrun2 : run n (step f p) = some q := hrun
      exact ih (step f p).1 (step f p).2 q (hit ▸ hm) hdd hdol hcen hnd hnc hrun2

/-- C5: if the token sequence contains no dollars and no cents marker,
then a successful `Parse` always returns 0 — the result is computed only
from the `dollars` and `cents` fields, which are written exclusively by the
marker transitions (or, after a dollars marker, at end of input). -/
theorem C5_no_marker_parses_to_zero (s : String) (v : Int)
    (hm : NoMark (newParser s).items) (h : Parse s = Except.ok v) : v = 0 := by
  simp only [Parse] at h
  cases hr : run ((newParser s).items.length + 2) (some Fn.parse, newParser s) with
  | none => rw [hr] at h; simp at h
  | some q =>
    rw [hr] at h
    cases hq : q.err with
    | some e => simp [hq] at h
    | none =>
      simp [hq] at h
      obtain ⟨hdd, hdol, hcen⟩ :=
        run_preserve ((newParser s).items.length + 2) (some Fn.parse) (newParser s) q
          hm rfl rfl rfl (by simp) (by simp) hr
      rw [← h, hdol, hcen]
      simp

/-- Witness for C5 at "forty five": its tokens carry no marker and the
parse succeeds, so the result is 0 (not 45). -/
theorem C5_witness :
    NoMark (newParser "forty five").items ∧ (0 : Int) = 0 :=
  ⟨by decide, C5_no_marker_parses_to_zero "forty five" 0 (by decide) rfl⟩

lemma peek_typ_of_le (p : Parser) (h : p.items.length ≤ p.pos) :
    (peek p).typ = itemType.itemEOL := by
  have hg : p.items.get? p.pos = none := List.get?_eq_none.mpr h
  unfold peek
  rw [hg]

lemma step_halt_at_end (f : Fn) (p : Parser) (h : p.items.length ≤ p.pos) :
    (step f p).1 = none := by
  cases f <;> simp only [step] <;> (try split) <;>
    first
    | rfl
    | (rename_i x heq
       exact absurd ((peek_typ_of_le _ (by (try dsimp only); omega)).symm.trans heq)
         (by decide))

lemma step_items (f : Fn) (p : Parser) : (step f p).2.items = p.items := by
  cases f <;> simp only [step] <;> repeat' split
  all_goals rfl

lemma step_no_parse (f : Fn) (p : Parser) : (step f p).1 ≠ some Fn.parse := by
  cases f <;> simp only [step] <;> repeat' split
  all_goals simp

lemma step_progress (f : Fn) (p : Parser) (hf : f ≠ Fn.parse) :
    (step f p).1 = none ∨ p.pos + 1 ≤ (step f p).2.pos := by
  cases f
  case parse => exact absurd rfl hf
  all_goals simp only [step]
  all_goals repeat' split
  all_goals first
    | exact Or.inl rfl
    | (left; trivial)
    | (right; (try dsimp only); omega)

lemma step_parse_snd (p : Parser) :
    (step Fn.parse p).2.pos = p.pos ∧ (step Fn.parse p).2.items = p.items := by
  simp only [step]
  repeat' split
  all_goals exact ⟨rfl, rfl⟩

lemma run_halts_aux : ∀ (n : Nat) (f : Fn) (p : Parser), f ≠ Fn.parse →
    p.items.length - p.pos < n → ∃ q, run n (some f, p) = some q := by
  intro n
  induction n with
  | zero => intro f p hf hlt; exact absurd hlt (Nat.not_lt_zero _)
  | succ n ih =>
    intro f p hf hlt
    rcases hsp : step f p with ⟨o, q2⟩
    have hrun : run (n + 1) (some f, p) = run n (o, q2) := by
      show run n (step f p) = run n (o, q2)
      rw [hsp]
    cases o with
    | none =>
      refine ⟨q2, ?_⟩
      rw [hrun]
      cases n <;> rfl
    | some g =>
      have hg : g ≠ Fn.parse := by
        intro hgp
        have h4 := step_no_parse f p
        rw [hsp, hgp] at h4
        exact h4 rfl
      have hpos : p.pos + 1 ≤ q2.pos := by
        have h5 := step_progress f p hf
        rw [hsp] at h5
        rcases h5 with h5 | h5
        · simp at h5
        · exact h5
      have hit : q2.items = p.items := by
        have h6 := step_items f p
        rw [hsp] at h6
        exact h6
      have hplt : p.pos < p.items.length := by
        by_contra hc
        have h7 := step_halt_at_end f p (by omega)
        rw [hsp] at h7
        simp at h7
      obtain ⟨q, hq⟩ := ih g q2 hg (by rw [hit]; omega)
      exact ⟨q, by rw [hrun]; exact hq⟩

/-- C10: for every input string the transition chain started by `Parse`
reaches `nil` within `items.length + 2` steps — the fuel `Parse` supplies —
so `run` returns a final parser state and the machine terminates. -/
theorem C10_termination (s : String) :
    ∃ q, run ((newParser s).items.length + 2) (some Fn.parse, newParser s) = some q := by
  rcases hsp : step Fn.parse (newParser s) with ⟨o, q2⟩
  have hrun : run ((newParser s).items.length + 2) (some Fn.parse, newParser s) =
      run ((newParser s).items.length + 1) (o, q2) := by
    show run ((newParser s).items.length + 1) (step Fn.parse (newParser s)) =
      run ((newParser s).items.length + 1) (o, q2)
    rw [hsp]
  cases o with
  | none =>
    refine ⟨q2, ?_⟩
    rw [hrun]
    cases h : (newParser s).items.length + 1 <;> rfl
  | some g =>
    have hg : g ≠ Fn.parse := by
      intro hgp
      have h4 := step_no_parse Fn.parse (newParser s)
      rw [hsp, hgp] at h4
      exact h4 rfl
    have hps := step_parse_snd (newParser s)
    rw [hsp] at hps
    have hpos : q2.pos = 0 := hps.1
    have hit : q2.items = (newParser s).items := hps.2
    obtain ⟨q, hq⟩ := run_halts_aux ((newParser s).items.length + 1) g q2 hg
      (by rw [hit, hpos]; omega)
    exact ⟨q, by rw [hrun]; exact hq⟩

/-- Witness for C10 at the input "one". -/
theorem C10_termination_witness :
    ∃ q, run ((newParser "one").items.length + 2)
      (some Fn.parse, newParser "one") = some q :=
  C10_termination "one"
